import Mathlib

/-!
Verification development for the SqlGenerator dynamic SQL template engine
(files SqlGenerator.h / SqlGenerator.cc). The C++ code is shallowly
embedded: Json models Json::Value, Value models the variant
int32_t / std::string / Json::Value, ParamItem models
std::optional of that variant, ParamList models the unordered map from
parameter names to values (as an association list), Lexer.next models
Lexer::next, ASTNode.getValue models the getValue methods of the AST
node classes, the Parser namespace models the recursive descent parser,
and getSubSql models SqlGenerator::getSubSql. Exceptions thrown by the
C++ code, assertion failures, and undefined behaviour (dereferencing a
disengaged optional, calling a method through a null pointer) are made
explicit in the Err type. Recursion that is unbounded in C++ (parser
productions, sub template resolution) takes an explicit fuel argument;
Err.outOfFuel marks exhaustion, a model artifact that no theorem below
treats as a result of the program.
-/

namespace SqlGen

/-- Model of Json::Value. Numbers are modelled by integers only, which
covers everything the engine inspects through isInt / asInt; jsoncpp
booleans, reals and nulls all fall into the catch-all conversions of the
code. An object is a list of members in a fixed order, modelling the
deterministic member order (getMemberNames) of a concrete Json::Value. -/
inductive Json where
  | null : Json
  | int (n : Int) : Json
  | str (s : String) : Json
  | bool (b : Bool) : Json
  | arr (elems : List Json) : Json
  | obj (members : List (String × Json)) : Json

mutual
/-- Structural equality on Json values, modelling Json::Value::operator==. -/
def Json.beq : Json → Json → Bool
  | .null, .null => true
  | .int a, .int b => a == b
  | .str a, .str b => a == b
  | .bool a, .bool b => a == b
  | .arr xs, .arr ys => Json.beqL xs ys
  | .obj xs, .obj ys => Json.beqM xs ys
  | _, _ => false
/-- Elementwise equality of Json arrays. -/
def Json.beqL : List Json → List Json → Bool
  | [], [] => true
  | x :: xs, y :: ys => Json.beq x y && Json.beqL xs ys
  | _, _ => false
/-- Memberwise equality of Json objects. -/
def Json.beqM : List (String × Json) → List (String × Json) → Bool
  | [], [] => true
  | (k1, v1) :: xs, (k2, v2) :: ys => k1 == k2 && Json.beq v1 v2 && Json.beqM xs ys
  | _, _ => false
end

mutual
def Json.beq_iff : ∀ (a b : Json), Json.beq a b = true ↔ a = b
  | .null, .null => by simp [Json.beq]
  | .int _, .int _ => by simp [Json.beq]
  | .str _, .str _ => by simp [Json.beq]
  | .bool _, .bool _ => by simp [Json.beq]
  | .arr xs, .arr ys => by simp [Json.beq, Json.beqL_iff xs ys]
  | .obj xs, .obj ys => by simp [Json.beq, Json.beqM_iff xs ys]
  | .null, .int _ | .null, .str _ | .null, .bool _ | .null, .arr _ | .null, .obj _
  | .int _, .null | .int _, .str _ | .int _, .bool _ | .int _, .arr _ | .int _, .obj _
  | .str _, .null | .str _, .int _ | .str _, .bool _ | .str _, .arr _ | .str _, .obj _
  | .bool _, .null | .bool _, .int _ | .bool _, .str _ | .bool _, .arr _ | .bool _, .obj _
  | .arr _, .null | .arr _, .int _ | .arr _, .str _ | .arr _, .bool _ | .arr _, .obj _
  | .obj _, .null | .obj _, .int _ | .obj _, .str _ | .obj _, .bool _ | .obj _, .arr _ =>
      by simp [Json.beq]
def Json.beqL_iff : ∀ (xs ys : List Json), Json.beqL xs ys = true ↔ xs = ys
  | [], [] => by simp [Json.beqL]
  | x :: xs, y :: ys => by simp [Json.beqL, Json.beq_iff x y, Json.beqL_iff xs ys]
  | [], _ :: _ => by simp [Json.beqL]
  | _ :: _, [] => by simp [Json.beqL]
def Json.beqM_iff : ∀ (xs ys : List (String × Json)), Json.beqM xs ys = true ↔ xs = ys
  | [], [] => by simp [Json.beqM]
  | (_, v1) :: xs, (_, v2) :: ys => by
      simp [Json.beqM, Json.beq_iff v1 v2, Json.beqM_iff xs ys, and_assoc]
  | [], _ :: _ => by simp [Json.beqM]
  | _ :: _, [] => by simp [Json.beqM]
end

instance : DecidableEq Json := fun a b => decidable_of_iff (Json.beq a b = true) (Json.beq_iff a b)

/-- Model of the runtime variant int32_t / std::string / Json::Value. -/
inductive Value where
  | int (n : Int) : Value
  | str (s : String) : Value
  | json (j : Json) : Value
deriving DecidableEq

/-- Model of ParamItem, std::optional of the variant; none models
std::nullopt, the Null of the template language. -/
abbrev ParamItem := Option Value

/-- Model of ParamList, the unordered map from parameter names to
values, as an association list (first binding of a key wins on lookup,
as in a map). -/
abbrev ParamList := List (String × Value)

/-- Model of the failure modes of the C++ code. -/
inductive Err where
  | thrown (msg : String) : Err
  | assertFail : Err
  | badVariantAccess : Err
  | derefDisengaged : Err
  | nullDeref : Err
  | outOfFuel : Err
deriving DecidableEq

instance {ε α : Type} [DecidableEq ε] [DecidableEq α] : DecidableEq (Except ε α) := fun a b =>
  match a, b with
  | .ok x, .ok y =>
    if h : x = y then .isTrue (by rw [h]) else .isFalse (by intro hh; cases hh; exact h rfl)
  | .error x, .error y =>
    if h : x = y then .isTrue (by rw [h]) else .isFalse (by intro hh; cases hh; exact h rfl)
  | .ok _, .error _ => .isFalse (by intro hh; cases hh)
  | .error _, .ok _ => .isFalse (by intro hh; cases hh)

/-- unordered_map::find composed with the end() test: the value stored
under a key, if present. -/
def ParamList.find (ps : ParamList) (k : String) : Option Value :=
  List.lookup k ps

/-- unordered_map::erase: remove the binding of a key. -/
def ParamList.erase (ps : ParamList) (k : String) : ParamList :=
  ps.filter (fun p => p.1 ≠ k)

/-- unordered_map::emplace: insert only when the key is absent. -/
def ParamList.emplace (ps : ParamList) (k : String) (v : Value) : ParamList :=
  if (ps.find k).isSome then ps else ps ++ [(k, v)]

/-- Model of tl::sql::toBool from SqlGenerator.cc. -/
def toBool : ParamItem → Bool
  | none => false
  | some (.int n) => n != 0
  | some (.str s) => s != ""
  | some (.json _) => true

/-- Json::Value::isInt. -/
def Json.isInt : Json → Bool
  | .int _ => true
  | _ => false

/-- Json::Value::isString. -/
def Json.isString : Json → Bool
  | .str _ => true
  | _ => false

/-- Json::Value::isArray. -/
def Json.isArray : Json → Bool
  | .arr _ => true
  | _ => false

/-- Json::Value::isObject. -/
def Json.isObject : Json → Bool
  | .obj _ => true
  | _ => false

/-- Json::Value::size: length for arrays, member count for objects,
zero otherwise. -/
def Json.size : Json → Nat
  | .arr elems => elems.length
  | .obj members => members.length
  | _ => 0

/-- Member lookup on an object: some value when the member exists. The
pair isMember and operator[] of jsoncpp is modelled by testing isSome
and taking getD Json.null respectively. -/
def Json.lookupMem : Json → String → Option Json
  | .obj members, k => List.lookup k members
  | _, _ => none

/-- Json::Value::operator[] with a string key, on an object whose
member may be absent: absent members read as null. -/
def Json.getMem (j : Json) (k : String) : Json :=
  (j.lookupMem k).getD .null

/-- Json::Value::getMemberNames, in the deterministic member order of
the model. -/
def Json.getMemberNames : Json → List String
  | .obj members => members.map Prod.fst
  | _ => []

/-- The unwrapping the code performs after a member / index / loop
element access: a JSON integer becomes Value.int via asInt, a JSON
string becomes Value.str via asString, everything else stays Json. -/
def unwrapJson : Json → Value
  | .int n => .int n
  | .str s => .str s
  | j => .json j

/-- The token kinds of SqlGenerator.h. -/
inductive TokenType where
  | NormalText | At | Identifier | LParen | Assign | String | Integer | Comma | RParen
  | Dollar | LBrace | RBrace | Dot | LBracket | RBracket | If | And | Or | Not | EQ | NEQ
  | Null | Else | ElIf | EndIf | For | Separator | In | EndFor | Done | Unknown
deriving DecidableEq

/-- tl::sql::to_string on TokenType, used in parser error messages. -/
def tokenTypeName : TokenType → String
  | .NormalText => "NormalText"
  | .At => "At"
  | .Identifier => "Identifier"
  | .LParen => "LParen"
  | .Assign => "Assign"
  | .String => "String"
  | .Integer => "Integer"
  | .Comma => "Comma"
  | .RParen => "RParen"
  | .Dollar => "Dollar"
  | .LBrace => "LBrace"
  | .RBrace => "RBrace"
  | .Dot => "Dot"
  | .LBracket => "LBracket"
  | .RBracket => "RBracket"
  | .If => "If"
  | .And => "And"
  | .Or => "Or"
  | .Not => "Not"
  | .EQ => "EQ"
  | .NEQ => "NEQ"
  | .Null => "Null"
  | .Else => "Else"
  | .ElIf => "ElIf"
  | .EndIf => "EndIf"
  | .For => "For"
  | .Separator => "Separator"
  | .In => "In"
  | .EndFor => "EndFor"
  | .Done => "Done"
  | .Unknown => "Unknown"

/-- A token: kind plus lexeme, empty for fixed-kind tokens. -/
structure Token where
  type : TokenType
  value : String
deriving DecidableEq

instance : Inhabited Token := ⟨⟨.Unknown, ""⟩⟩

/-- Lexer state: source bytes, byte offset, sensitive-region nesting
counter and the one-shot flag that cancels the next LParen depth
increment. -/
structure Lexer where
  sql : List Char
  pos : Nat
  parenDepth : Nat
  cancelOnceLParen : Bool
deriving DecidableEq

/-- Lexer::Lexer, composed with the reset of the constructor. -/
def Lexer.mk0 (s : String) : Lexer :=
  { sql := s.data, pos := 0, parenDepth := 0, cancelOnceLParen := false }

/-- Lexer::done. -/
def Lexer.done (lx : Lexer) : Bool :=
  lx.pos == lx.sql.length

/-- std::string::operator[]: the byte at an index, the nul byte at the
terminating position. -/
def charAt (s : List Char) (i : Nat) : Char :=
  s.getD i (Char.ofNat 0)

/-- The whitespace bytes skipped in sensitive regions. -/
def isWs (c : Char) : Bool :=
  c == ' ' || c == '\t' || c == '\r' || c == '\n'

/-- isalpha(c) || c == underscore || c & 0x80, the identifier start test. -/
def identStart (c : Char) : Bool :=
  c.isAlpha || c == '_' || decide (c.toNat ≥ 128)

/-- isalnum(c) || c == underscore || c & 0x80, the identifier continuation test. -/
def identCont (c : Char) : Bool :=
  c.isAlphanum || c == '_' || decide (c.toNat ≥ 128)

/-- The keyword map of Lexer::next. -/
def keywordTok : String → Option TokenType
  | "and" => some .And
  | "or" => some .Or
  | "not" => some .Not
  | "if" => some .If
  | "else" => some .Else
  | "elif" => some .ElIf
  | "endif" => some .EndIf
  | "for" => some .For
  | "separator" => some .Separator
  | "in" => some .In
  | "null" => some .Null
  | "endfor" => some .EndFor
  | _ => none

/-- Model of Lexer::next from SqlGenerator.cc. Returns the next token
and the lexer state after it; a thrown runtime_error is an Err.thrown. -/
def Lexer.next (lx : Lexer) : Except Err (Token × Lexer) :=
  if lx.pos = lx.sql.length then .ok (⟨.Done, ""⟩, lx)
  else if lx.parenDepth = 0 then
    let c := charAt lx.sql lx.pos
    if c = '@' then
      .ok (⟨.At, ""⟩,
        { lx with pos := lx.pos + 1, parenDepth := lx.parenDepth + 1, cancelOnceLParen := true })
    else if c = '$' then
      .ok (⟨.Dollar, ""⟩, { lx with pos := lx.pos + 1, parenDepth := lx.parenDepth + 1 })
    else
      let run := (lx.sql.drop lx.pos).takeWhile (fun ch => ch != '@' && ch != '$')
      .ok (⟨.NormalText, String.mk run⟩, { lx with pos := lx.pos + run.length })
  else
    let p := lx.pos + ((lx.sql.drop lx.pos).takeWhile isWs).length
    let c := charAt lx.sql p
    if c = '@' then
      .ok (⟨.At, ""⟩,
        { lx with pos := p + 1, parenDepth := lx.parenDepth + 1, cancelOnceLParen := true })
    else if c = '$' then
      .ok (⟨.Dollar, ""⟩, { lx with pos := p + 1, parenDepth := lx.parenDepth + 1 })
    else if c = '(' then
      if lx.cancelOnceLParen then
        .ok (⟨.LParen, ""⟩, { lx with pos := p + 1, cancelOnceLParen := false })
      else
        .ok (⟨.LParen, ""⟩,
          { lx with pos := p + 1, parenDepth := lx.parenDepth + 1, cancelOnceLParen := false })
    else if c = ')' then
      .ok (⟨.RParen, ""⟩, { lx with pos := p + 1, parenDepth := lx.parenDepth - 1 })
    else if c = '}' then
      .ok (⟨.RBrace, ""⟩, { lx with pos := p + 1, parenDepth := lx.parenDepth - 1 })
    else if c = ',' then .ok (⟨.Comma, ""⟩, { lx with pos := p + 1 })
    else if c = '{' then .ok (⟨.LBrace, ""⟩, { lx with pos := p + 1 })
    else if c = '.' then .ok (⟨.Dot, ""⟩, { lx with pos := p + 1 })
    else if c = '[' then .ok (⟨.LBracket, ""⟩, { lx with pos := p + 1 })
    else if c = ']' then .ok (⟨.RBracket, ""⟩, { lx with pos := p + 1 })
    else if c = '!' then
      if p + 1 < lx.sql.length ∧ charAt lx.sql (p + 1) = '=' then
        .ok (⟨.NEQ, ""⟩, { lx with pos := p + 2 })
      else .ok (⟨.Not, ""⟩, { lx with pos := p + 1 })
    else if c = '=' then
      if p + 1 < lx.sql.length ∧ charAt lx.sql (p + 1) = '=' then
        .ok (⟨.EQ, ""⟩, { lx with pos := p + 2 })
      else .ok (⟨.Assign, ""⟩, { lx with pos := p + 1 })
    else if c = '&' ∧ p + 1 < lx.sql.length ∧ charAt lx.sql (p + 1) = '&' then
      .ok (⟨.And, ""⟩, { lx with pos := p + 2 })
    else if c = '|' ∧ p + 1 < lx.sql.length ∧ charAt lx.sql (p + 1) = '|' then
      .ok (⟨.Or, ""⟩, { lx with pos := p + 2 })
    else if c.toNat = 39 ∨ c = '"' then
      let body := (lx.sql.drop (p + 1)).takeWhile (fun ch => ch != c)
      if p + 1 + body.length = lx.sql.length then
        .error (.thrown "Invalid expression. Unclosed string.")
      else
        .ok (⟨.String, String.mk body⟩, { lx with pos := p + 1 + body.length + 1 })
    else if identStart c then
      let run := (lx.sql.drop p).takeWhile identCont
      let ident := String.mk run
      match keywordTok ident with
      | some ty =>
        if ident = "else" ∨ ident = "endif" ∨ ident = "endfor" then
          .ok (⟨ty, ""⟩, { lx with pos := p + run.length, parenDepth := lx.parenDepth - 1 })
        else
          .ok (⟨ty, ""⟩, { lx with pos := p + run.length })
      | none => .ok (⟨.Identifier, ident⟩, { lx with pos := p + run.length })
    else if c.isDigit then
      let run := (lx.sql.drop p).takeWhile Char.isDigit
      let p2 := p + run.length
      if run.length = 1 then .ok (⟨.Integer, String.mk run⟩, { lx with pos := p2 })
      else if run.length > 1 ∧ charAt run 0 = '0' then
        let i := 1 + ((run.drop 1).takeWhile (fun ch => ch == '0')).length
        .ok (⟨.Integer, if i = run.length then "0" else String.mk (run.drop i)⟩,
          { lx with pos := p2 })
      else
        .error (.thrown ("Invalid expression(" ++ toString p2 ++ "): " ++
          String.mk (lx.sql.drop p2)))
    else
      .error (.thrown ("Invalid expression(" ++ toString p ++ "): " ++ String.mk (lx.sql.drop p)))

/-- The AST of the template language. Constructors model the C++ node
classes: normalText is NormalTextNode, number is NumberNode, string is
StringNode, null is NullNode, var is VariableNode, member is
MemberNode, array is ArrayNode, subSql is SubSqlNode, notOp / andOp /
orOp are NotNode / AndNode / OrNode, eq / neq are EQNode / NEQNode,
ifStmt is IfStmtNode and forLoop is ForLoopNode. A linked sibling chain
is a List ASTNode; the empty list models a null chain root. -/
inductive ASTNode where
  | normalText (text : String) : ASTNode
  | number (value : Int) : ASTNode
  | string (value : String) : ASTNode
  | null : ASTNode
  | var (name : String) : ASTNode
  | member (left right : ASTNode) : ASTNode
  | array (left right : ASTNode) : ASTNode
  | subSql (name : String) (params : List (String × ASTNode)) : ASTNode
  | notOp (left : ASTNode) : ASTNode
  | andOp (left right : ASTNode) : ASTNode
  | orOp (left right : ASTNode) : ASTNode
  | eq (left right : ASTNode) : ASTNode
  | neq (left right : ASTNode) : ASTNode
  | ifStmt (condition : ASTNode) (thenChain : List ASTNode)
      (elIfStmts : List (ASTNode × List ASTNode)) (elseChain : List ASTNode) : ASTNode
  | forLoop (valueName indexName : String) (collection : ASTNode)
      (separator : Option ASTNode) (loopBody : List ASTNode) : ASTNode

/-- The sub-SQL resolver callback type of SubSqlNode / Parser. -/
abbrev Getter := String → ParamList → Except Err String

/-- Json::Value::operator[] with an in-range int index on an array. -/
def Json.getIdx : Json → Nat → Json
  | .arr elems, i => elems.getD i .null
  | _, _ => .null

/-- The string projection ASTNode::generateSql applies to each node
value: strings verbatim, integers in decimal, Null and Json nothing. -/
def valueToString : ParamItem → String
  | none => ""
  | some (.str s) => s
  | some (.int n) => toString n
  | some (.json _) => ""

/-- ASTNode::generateSql on a non-null sibling chain, parameterized by
the node evaluator: concatenate the string projections of the node
values along the chain. -/
def generateSqlWith (ev : ASTNode → ParamList → Except Err ParamItem) :
    List ASTNode → ParamList → Except Err String
  | [], _ => .ok ""
  | n :: rest, env => do
    let v ← ev n env
    let srest ← generateSqlWith ev rest env
    .ok (valueToString v ++ srest)

/-- A call of generateSql through an ASTNodePtr that may be null (an
empty chain): calling through a null pointer is undefined behaviour,
modelled as Err.nullDeref. -/
def generateSqlRoot (ev : ASTNode → ParamList → Except Err ParamItem)
    (chain : List ASTNode) (env : ParamList) : Except Err String :=
  match chain with
  | [] => .error .nullDeref
  | _ => generateSqlWith ev chain env

/-- The argument-collection loop of SubSqlNode::getValue: evaluate each
bound expression in the caller environment; engaged results are
emplaced, Null results are skipped (the code logs an error). -/
def collectParamsWith (ev : ASTNode → ParamList → Except Err ParamItem) :
    List (String × ASTNode) → ParamList → ParamList → Except Err ParamList
  | [], _, acc => .ok acc
  | (k, node) :: rest, env, acc => do
    let v ← ev node env
    match v with
    | some v2 => collectParamsWith ev rest env (acc.emplace k v2)
    | none => collectParamsWith ev rest env acc

/-- The elif scan of IfStmtNode::getValue, followed by the else branch
(an empty else chain models a null elseStmt_, which the code tests). -/
def evalElIfsWith (ev : ASTNode → ParamList → Except Err ParamItem) :
    List (ASTNode × List ASTNode) → List ASTNode → ParamList → Except Err ParamItem
  | [], elseChain, env =>
    match elseChain with
    | [] => .ok none
    | chain => do
      let s ← generateSqlRoot ev chain env
      .ok (some (.str s))
  | (c, chain) :: rest, elseChain, env => do
    let vc ← ev c env
    if toBool vc then do
      let s ← generateSqlRoot ev chain env
      .ok (some (.str s))
    else evalElIfsWith ev rest elseChain env

/-- The setParamAndIndex lambda of ForLoopNode::getValue: rebind the
value name to the unwrapped element and, when an index name was
declared, the index name to the index value (the integer position for
arrays, the member key for objects). -/
def setParamAndIndex (valueName indexName : String) (np : ParamList) (valueJson : Json)
    (index : Value) : ParamList :=
  let np2 := (np.erase valueName).emplace valueName (unwrapJson valueJson)
  if indexName = "" then np2
  else (np2.erase indexName).emplace indexName index

/-- The conversion of the evaluated collection in ForLoopNode::getValue:
a Null collection falls back to a default-constructed (null) Json value,
and std::get on a non-Json collection value throws bad_variant_access. -/
def collToJson : ParamItem → Except Err Json
  | none => .ok .null
  | some (.json j) => .ok j
  | some _ => .error .badVariantAccess

/-- The conversion of the evaluated separator in ForLoopNode::getValue:
absent or Null gives the empty separator, and std::get on a non-String
separator value throws bad_variant_access. -/
def sepToStr : ParamItem → Except Err String
  | none => .ok ""
  | some (.str s) => .ok s
  | some _ => .error .badVariantAccess

/-- The separator evaluation of ForLoopNode::getValue: a null
separator_ pointer yields Null without evaluation. -/
def sepOf (ev : ASTNode → ParamList → Except Err ParamItem) :
    Option ASTNode → ParamList → Except Err ParamItem
  | none, _ => .ok none
  | some sepNode, env => ev sepNode env

/-- The array iteration of ForLoopNode::getValue: the shadowed bag is
threaded through the iterations, the body rendering of each element is
appended, and the separator follows every element except the last. -/
def runLoopArrWith (renderBody : ParamList → Except Err String)
    (valueName indexName sepStr : String) (total : Nat) :
    ParamList → Nat → List Json → Except Err String
  | _, _, [] => .ok ""
  | np, i, e :: rest => do
    let np2 := setParamAndIndex valueName indexName np e (.int (Int.ofNat i))
    let s ← renderBody np2
    let s2 := if i + 1 ≠ total then s ++ sepStr else s
    let srest ← runLoopArrWith renderBody valueName indexName sepStr total np2 (i + 1) rest
    .ok (s2 ++ srest)

/-- The object iteration of ForLoopNode::getValue, over the member
names of the collection. -/
def runLoopObjWith (renderBody : ParamList → Except Err String)
    (valueName indexName sepStr : String) (collJson : Json) (total : Nat) :
    ParamList → Nat → List String → Except Err String
  | _, _, [] => .ok ""
  | np, i, k :: rest => do
    let np2 := setParamAndIndex valueName indexName np (collJson.getMem k) (.str k)
    let s ← renderBody np2
    let s2 := if i + 1 ≠ total then s ++ sepStr else s
    let srest ← runLoopObjWith renderBody valueName indexName sepStr collJson total np2 (i + 1) rest
    .ok (s2 ++ srest)

/-- Model of the getValue methods of the AST node classes of
SqlGenerator.cc, with an explicit fuel bound on node nesting depth. g
is the subSqlGetter_ callback. Thrown exceptions, variant misuse and
optional misuse appear as the corresponding Err values. -/
def ASTNode.getValue (g : Getter) : Nat → ASTNode → ParamList → Except Err ParamItem
  | 0, _, _ => .error .outOfFuel
  | f + 1, node, env =>
    match node with
    | .normalText text => .ok (some (.str text))
    | .number v => .ok (some (.int v))
    | .string v => .ok (some (.str v))
    | .null => .ok none
    | .var name =>
      match env.find name with
      | none => .ok none
      | some v => .ok (some v)
    | .member l r => do
      let vl ← ASTNode.getValue g f l env
      match vl with
      | some (.json j) => do
        let vr ← ASTNode.getValue g f r []
        match vr with
        | none => Except.error Err.derefDisengaged
        | some (.str memberName) =>
          if j.isObject ∧ (j.lookupMem memberName).isSome then
            .ok (some (unwrapJson (j.getMem memberName)))
          else .ok none
        | some _ => Except.error Err.badVariantAccess
      | _ => .ok none
    | .array l r => do
      let vl ← ASTNode.getValue g f l env
      match vl with
      | some (.json j) => do
        let vr ← ASTNode.getValue g f r env
        match vr with
        | none => Except.error Err.derefDisengaged
        | some (.int idx) =>
          .ok (some (unwrapJson
            (if j.isArray ∧ 0 ≤ idx ∧ idx < (j.size : Int) then j.getIdx idx.toNat
             else Json.null)))
        | some (.str memberName) =>
          .ok (some (unwrapJson
            (if j.isObject ∧ (j.lookupMem memberName).isSome then j.getMem memberName
             else Json.null)))
        | some (.json _) => .ok (some (unwrapJson Json.null))
      | _ => .ok none
    | .subSql name params => do
      let subParams ← collectParamsWith (ASTNode.getValue g f) params env []
      let s ← g name subParams
      .ok (some (.str s))
    | .notOp l => do
      let v ← ASTNode.getValue g f l env
      .ok (some (.int (if toBool v then 0 else 1)))
    | .andOp l r => do
      let vl ← ASTNode.getValue g f l env
      let vr ← ASTNode.getValue g f r env
      if toBool vl then .ok (some (.int (if toBool vr then 1 else 0)))
      else .ok (some (.int 0))
    | .orOp l r => do
      let vl ← ASTNode.getValue g f l env
      let vr ← ASTNode.getValue g f r env
      if toBool vl then .ok (some (.int 1))
      else .ok (some (.int (if toBool vr then 1 else 0)))
    | .eq l r => do
      let vl ← ASTNode.getValue g f l env
      let vr ← ASTNode.getValue g f r env
      match vl, vr with
      | none, none => .ok (some (.int 1))
      | none, some _ => .ok (some (.int 0))
      | some _, none => .ok (some (.int 0))
      | some (.int a), some (.int b) => .ok (some (.int (if a = b then 1 else 0)))
      | some (.str a), some (.str b) => .ok (some (.int (if a = b then 1 else 0)))
      | some (.json a), some (.json b) => .ok (some (.int (if a = b then 1 else 0)))
      | some _, some _ => .ok (some (.int 0))
    | .neq l r => do
      let vl ← ASTNode.getValue g f l env
      let vr ← ASTNode.getValue g f r env
      match vl, vr with
      | none, none => .ok (some (.int 0))
      | none, some _ => .ok (some (.int 1))
      | some _, none => .ok (some (.int 1))
      | some (.int a), some (.int b) => .ok (some (.int (if a ≠ b then 1 else 0)))
      | some (.str a), some (.str b) => .ok (some (.int (if a ≠ b then 1 else 0)))
      | some (.json a), some (.json b) => .ok (some (.int (if a ≠ b then 1 else 0)))
      | some _, some _ => .ok (some (.int 1))
    | .ifStmt cond thenChain elifs elseChain => do
      let vc ← ASTNode.getValue g f cond env
      if toBool vc then do
        let s ← generateSqlRoot (ASTNode.getValue g f) thenChain env
        .ok (some (.str s))
      else evalElIfsWith (ASTNode.getValue g f) elifs elseChain env
    | .forLoop valueName indexName collection separator loopBody => do
      let c ← ASTNode.getValue g f collection env
      let collectionJson ← collToJson c
      let sepItem ← sepOf (ASTNode.getValue g f) separator env
      let sepStr ← sepToStr sepItem
      match collectionJson with
      | .arr elems => do
        let s ← runLoopArrWith (generateSqlRoot (ASTNode.getValue g f) loopBody)
          valueName indexName sepStr elems.length env 0 elems
        .ok (some (.str s))
      | .obj members => do
        let s ← runLoopObjWith (generateSqlRoot (ASTNode.getValue g f) loopBody)
          valueName indexName sepStr (.obj members) members.length env 0 (members.map Prod.fst)
        .ok (some (.str s))
      | _ => .ok (some (.str ""))
termination_by structural f _ _ => f

/-- ASTNode::generateSql over a sibling chain, at a given fuel. -/
def generateSql (g : Getter) (f : Nat) (chain : List ASTNode) (env : ParamList) :
    Except Err String :=
  generateSqlWith (ASTNode.getValue g f) chain env

/-- drogon::utils::fromString on the digit-only lexeme of an Integer
token. -/
def strToInt (s : String) : Int :=
  Int.ofNat (s.data.foldl (fun acc c => acc * 10 + (c.toNat - 48)) 0)

namespace Parser

/-- Parser state: the lexer plus the two-token lookahead deque ahead_. -/
structure PState where
  lexer : Lexer
  ahead : List Token

/-- ahead_[0]. -/
def peek (st : PState) : Token :=
  st.ahead.headD default

/-- ahead_[1]. -/
def peek2 (st : PState) : Token :=
  st.ahead.getD 1 default

/-- Parser::nextToken: pop the front of the lookahead deque and push
the next lexer token. -/
def nextToken (st : PState) : Except Err PState := do
  let (t, lx) ← st.lexer.next
  .ok { lexer := lx, ahead := st.ahead.drop 1 ++ [t] }

/-- Parser::match: the code only asserts that the front token has the
expected kind; a mismatch is an assertion failure, not a thrown
error. On success the lexeme is returned and the window advances. -/
def matchTok (ty : TokenType) (st : PState) : Except Err (String × PState) :=
  if (peek st).type = ty then do
    let st2 ← nextToken st
    .ok ((peek st).value, st2)
  else .error .assertFail

/-- Parser::reset composed with construction: a fresh lexer and a
two-token lookahead window. -/
def reset (sqlStr : String) : Except Err PState := do
  let lx := Lexer.mk0 sqlStr
  let (t1, lx) ← lx.next
  let (t2, lx) ← lx.next
  .ok { lexer := lx, ahead := [t1, t2] }

/-- unordered_map::emplace on the parser-side parameter map: first
binding of a name wins. -/
def emplaceNode (ps : List (String × ASTNode)) (k : String) (n : ASTNode) :
    List (String × ASTNode) :=
  if (List.lookup k ps).isSome then ps else ps ++ [(k, n)]

/-- The parser productions, one field per member function of the C++
Parser class (the extra Loop / Text fields are the while loops inside
those member functions). The recursion among the productions is tied by
productionsAt below. -/
structure Productions where
  sql : PState → Except Err (List ASTNode × PState)
  sqlLoop : List ASTNode → PState → Except Err (List ASTNode × PState)
  sqlText : List ASTNode → PState → Except Err (List ASTNode × PState)
  printExpr : PState → Except Err (ASTNode × PState)
  expr : PState → Except Err (ASTNode × PState)
  suffixLoop : ASTNode → PState → Except Err (ASTNode × PState)
  paramSuffix : ASTNode → PState → Except Err (ASTNode × PState)
  subSql : PState → Except Err (ASTNode × PState)
  paramList : PState → Except Err (List (String × ASTNode) × PState)
  paramListLoop :
    List (String × ASTNode) → PState → Except Err (List (String × ASTNode) × PState)
  paramItem : PState → Except Err ((String × ASTNode) × PState)
  paramValue : PState → Except Err (ASTNode × PState)
  ifStmt : PState → Except Err (ASTNode × PState)
  elifLoop : ASTNode → List ASTNode → List (ASTNode × List ASTNode) → PState →
    Except Err (ASTNode × PState)
  boolExpr : PState → Except Err (ASTNode × PState)
  orLoop : ASTNode → PState → Except Err (ASTNode × PState)
  term : PState → Except Err (ASTNode × PState)
  andLoop : ASTNode → PState → Except Err (ASTNode × PState)
  factor : PState → Except Err (ASTNode × PState)
  compExpr : PState → Except Err (ASTNode × PState)
  forLoop : PState → Except Err (ASTNode × PState)

/-- The bottom of the fuel recursion: every production reports fuel
exhaustion, a model artifact. -/
def failProductions : Productions where
  sql := fun _ => .error .outOfFuel
  sqlLoop := fun _ _ => .error .outOfFuel
  sqlText := fun _ _ => .error .outOfFuel
  printExpr := fun _ => .error .outOfFuel
  expr := fun _ => .error .outOfFuel
  suffixLoop := fun _ _ => .error .outOfFuel
  paramSuffix := fun _ _ => .error .outOfFuel
  subSql := fun _ => .error .outOfFuel
  paramList := fun _ => .error .outOfFuel
  paramListLoop := fun _ _ => .error .outOfFuel
  paramItem := fun _ => .error .outOfFuel
  paramValue := fun _ => .error .outOfFuel
  ifStmt := fun _ => .error .outOfFuel
  elifLoop := fun _ _ _ _ => .error .outOfFuel
  boolExpr := fun _ => .error .outOfFuel
  orLoop := fun _ _ => .error .outOfFuel
  term := fun _ => .error .outOfFuel
  andLoop := fun _ _ => .error .outOfFuel
  factor := fun _ => .error .outOfFuel
  compExpr := fun _ => .error .outOfFuel
  forLoop := fun _ => .error .outOfFuel

/-- One step of the productions: each body is the direct translation of
the corresponding Parser member function of SqlGenerator.cc, with p
standing for the recursive occurrences. -/
def step (p : Productions) : Productions where
  -- Parser::sql
  sql := fun st =>
    if (peek st).type = .NormalText then do
      let (v, st) ← matchTok .NormalText st
      p.sqlLoop [ASTNode.normalText v] st
    else p.sqlLoop [] st
  -- the dispatch loop of Parser::sql
  sqlLoop := fun acc st =>
    if (peek st).type = .At then
      if (peek2 st).type = .Identifier then do
        let (n, st) ← p.subSql st
        p.sqlText (acc ++ [n]) st
      else if (peek2 st).type = .If then do
        let (n, st) ← p.ifStmt st
        p.sqlText (acc ++ [n]) st
      else if (peek2 st).type = .For then do
        let (n, st) ← p.forLoop st
        p.sqlText (acc ++ [n]) st
      else .ok (acc, st)
    else if (peek st).type = .Dollar then do
      let (n, st) ← p.printExpr st
      p.sqlText (acc ++ [n]) st
    else .ok (acc, st)
  -- the optional NormalText after each block in Parser::sql
  sqlText := fun acc st =>
    if (peek st).type = .NormalText then do
      let (v, st) ← matchTok .NormalText st
      p.sqlLoop (acc ++ [ASTNode.normalText v]) st
    else p.sqlLoop acc st
  -- Parser::printExpr
  printExpr := fun st => do
    let (_, st) ← matchTok .Dollar st
    let (_, st) ← matchTok .LBrace st
    let (result, st) ← p.expr st
    let (_, st) ← matchTok .RBrace st
    .ok (result, st)
  -- Parser::expr
  expr := fun st =>
    if (peek st).type = .Null then do
      let (_, st) ← matchTok .Null st
      .ok (.null, st)
    else if (peek st).type = .Integer then do
      let (v, st) ← matchTok .Integer st
      .ok (.number (strToInt v), st)
    else if (peek st).type = .String then do
      let (v, st) ← matchTok .String st
      .ok (.string v, st)
    else if (peek st).type = .Identifier then do
      let (paramName, st) ← matchTok .Identifier st
      p.suffixLoop (.var paramName) st
    else
      .error (.thrown ("Invalid expression. Unexpected token: " ++
        tokenTypeName (peek st).type))
  -- the suffix loop of Parser::expr
  suffixLoop := fun param st =>
    if (peek st).type = .Dot ∨ (peek st).type = .LBracket then do
      let (param2, st) ← p.paramSuffix param st
      p.suffixLoop param2 st
    else .ok (param, st)
  -- Parser::paramSuffix
  paramSuffix := fun param st =>
    if (peek st).type = .LBracket then do
      let (_, st) ← matchTok .LBracket st
      let (indexNode, st) ← p.expr st
      let (_, st) ← matchTok .RBracket st
      .ok (.array param indexNode, st)
    else if (peek st).type = .Dot then do
      let (_, st) ← matchTok .Dot st
      let (memberName, st) ← matchTok .Identifier st
      .ok (.member param (.string memberName), st)
    else .ok (param, st)
  -- Parser::subSql
  subSql := fun st => do
    let (_, st) ← matchTok .At st
    let (subSqlName, st) ← matchTok .Identifier st
    let (_, st) ← matchTok .LParen st
    let (params, st) ←
      if (peek st).type = .Identifier then p.paramList st
      else .ok ([], st)
    let (_, st) ← matchTok .RParen st
    .ok (.subSql subSqlName params, st)
  -- Parser::paramList
  paramList := fun st => do
    let (kv, st) ← p.paramItem st
    p.paramListLoop (emplaceNode [] kv.1 kv.2) st
  -- the comma loop of Parser::paramList
  paramListLoop := fun acc st =>
    if (peek st).type = .Comma then do
      let (_, st) ← matchTok .Comma st
      let (kv, st) ← p.paramItem st
      p.paramListLoop (emplaceNode acc kv.1 kv.2) st
    else .ok (acc, st)
  -- Parser::paramItem: a bare identifier is shorthand for name = name
  paramItem := fun st => do
    let (paramName, st) ← matchTok .Identifier st
    if (peek st).type = .Assign then do
      let (_, st) ← matchTok .Assign st
      let (v, st) ← p.paramValue st
      .ok ((paramName, v), st)
    else .ok ((paramName, ASTNode.var paramName), st)
  -- Parser::paramValue
  paramValue := fun st =>
    if (peek st).type = .At then p.subSql st
    else p.expr st
  -- Parser::ifStmt up to the first branch
  ifStmt := fun st => do
    let (_, st) ← matchTok .At st
    let (_, st) ← matchTok .If st
    let (_, st) ← matchTok .LParen st
    let (condition, st) ← p.boolExpr st
    let (_, st) ← matchTok .RParen st
    let (thenChain, st) ← p.sql st
    p.elifLoop condition thenChain [] st
  -- the elif loop, optional else and closing endif of Parser::ifStmt
  elifLoop := fun condition thenChain elifs st =>
    if (peek st).type = .At ∧ (peek2 st).type = .ElIf then do
      let (_, st) ← matchTok .At st
      let (_, st) ← matchTok .ElIf st
      let (_, st) ← matchTok .LParen st
      let (c, st) ← p.boolExpr st
      let (_, st) ← matchTok .RParen st
      let (chain, st) ← p.sql st
      p.elifLoop condition thenChain (elifs ++ [(c, chain)]) st
    else do
      let (elseChain, st) ←
        if (peek st).type = .At ∧ (peek2 st).type = .Else then do
          let (_, st) ← matchTok .At st
          let (_, st) ← matchTok .Else st
          p.sql st
        else .ok ([], st)
      let (_, st) ← matchTok .At st
      let (_, st) ← matchTok .EndIf st
      .ok (.ifStmt condition thenChain elifs elseChain, st)
  -- Parser::boolExpr
  boolExpr := fun st => do
    let (root, st) ← p.term st
    p.orLoop root st
  -- the or loop of Parser::boolExpr
  orLoop := fun root st =>
    if (peek st).type = .Or then do
      let (_, st) ← matchTok .Or st
      let (t, st) ← p.term st
      p.orLoop (.orOp root t) st
    else .ok (root, st)
  -- Parser::term
  term := fun st => do
    let (root, st) ← p.factor st
    p.andLoop root st
  -- the and loop of Parser::term
  andLoop := fun root st =>
    if (peek st).type = .And then do
      let (_, st) ← matchTok .And st
      let (fa, st) ← p.factor st
      p.andLoop (.andOp root fa) st
    else .ok (root, st)
  -- Parser::factor
  factor := fun st => do
    let (isNegated, st) ←
      if (peek st).type = .Not then do
        let (_, st) ← matchTok .Not st
        Except.ok (true, st)
      else Except.ok (false, st)
    if (peek st).type = .LParen then do
      let (_, st) ← matchTok .LParen st
      let (boolNode, st) ← p.boolExpr st
      let (_, st) ← matchTok .RParen st
      .ok (if isNegated then .notOp boolNode else boolNode, st)
    else do
      let (compNode, st) ← p.compExpr st
      .ok (if isNegated then .notOp compNode else compNode, st)
  -- Parser::compExpr
  compExpr := fun st => do
    let (result1, st) ← p.expr st
    if (peek st).type = .EQ then do
      let (_, st) ← matchTok .EQ st
      let (result2, st) ← p.expr st
      .ok (.eq result1 result2, st)
    else if (peek st).type = .NEQ then do
      let (_, st) ← matchTok .NEQ st
      let (result2, st) ← p.expr st
      .ok (.neq result1 result2, st)
    else .ok (result1, st)
  -- Parser::forLoop
  forLoop := fun st => do
    let (_, st) ← matchTok .At st
    let (_, st) ← matchTok .For st
    let (_, st) ← matchTok .LParen st
    let (names, st) ←
      if (peek st).type = .LParen then do
        let (_, st) ← matchTok .LParen st
        let (varName, st) ← matchTok .Identifier st
        let (_, st) ← matchTok .Comma st
        let (indexName, st) ← matchTok .Identifier st
        let (_, st) ← matchTok .RParen st
        Except.ok ((varName, indexName), st)
      else if (peek st).type = .Identifier then do
        let (varName, st) ← matchTok .Identifier st
        Except.ok ((varName, ""), st)
      else Except.ok (("", ""), st)
    let (_, st) ← matchTok .In st
    let (collection, st) ← p.expr st
    let (separator, st) ←
      if (peek st).type = .Comma then do
        let (_, st) ← matchTok .Comma st
        let (_, st) ← matchTok .Separator st
        let (_, st) ← matchTok .Assign st
        let (s, st) ← matchTok .String st
        Except.ok (some (ASTNode.string s), st)
      else Except.ok (none, st)
    let (_, st) ← matchTok .RParen st
    let (loopBody, st) ← p.sql st
    let (_, st) ← matchTok .At st
    let (_, st) ← matchTok .EndFor st
    .ok (.forLoop names.1 names.2 collection separator loopBody, st)

/-- The productions at a given fuel: fuel bounds the depth of nested
production calls. -/
def productionsAt : Nat → Productions
  | 0 => failProductions
  | f + 1 => step (productionsAt f)

/-- Parser::sql at a given fuel. -/
def sql (f : Nat) : PState → Except Err (List ASTNode × PState) :=
  (productionsAt f).sql

/-- Parser::parse: reset, build the AST with the sql production, raise
on leftover input, then render the root chain (a null root is a null
pointer dereference). -/
def parse (sqlStr : String) (params : ParamList) (g : Getter) (f : Nat) :
    Except Err String := do
  let st ← reset sqlStr
  let (chain, st2) ← sql f st
  if st2.lexer.done then generateSqlRoot (ASTNode.getValue g f) chain params
  else .error (.thrown "Invalid expression.")

end Parser

/-- The type-preserving conversion getSubSql applies to a declared
default value: a JSON string becomes String via asString, a JSON
integer becomes Integer via asInt, anything else stays Json. -/
def convertDefault : Json → Value
  | .str s => .str s
  | .int n => .int n
  | j => .json j

/-- The default-injection loop of SqlGenerator::getSubSql: each
declared default is emplaced, which binds it exactly when the caller
did not supply the key. -/
def mergeDefaults : List (String × Json) → ParamList → ParamList
  | [], params => params
  | (k, d) :: rest, params => mergeDefaults rest (params.emplace k (convertDefault d))

/-- Model of SqlGenerator::getSubSql with prepareParser inlined: find
the template text of the requested section, inject declared defaults
for keys the caller did not supply, and parse with the resolver that
renders sibling sections of the same entry. A missing parser surfaces
as the out_of_range throw of unordered_map::at; taking operator[] with
a string key on a non-object, non-null registry node trips the jsoncpp
assertion, modelled as Err.assertFail. The fuel bounds the sub-template
recursion depth as well as the parser and evaluator depth. -/
def getSubSql (sqls : Json) : Nat → String → String → ParamList → Except Err String
  | 0, _, _, _ => .error .outOfFuel
  | f + 1, name, subSqlName, params =>
    match sqls.lookupMem name with
    | some (.str _) =>
      if subSqlName = "main" then .error .assertFail
      else .error (.thrown "out_of_range")
    | some (.int _) | some (.bool _) | some (.arr _) => .error .assertFail
    | some (.obj kvs) =>
      match List.lookup subSqlName kvs with
      | none => .error (.thrown "out_of_range")
      | some sub =>
        let sqlStr :=
          match sub with
          | .str s => s
          | .obj skvs =>
            match List.lookup "sql" skvs with
            | some (.str s) => s
            | _ => ""
          | _ => ""
        let merged :=
          match sub with
          | .obj skvs =>
            match List.lookup "params" skvs with
            | some (.obj ds) => mergeDefaults ds params
            | _ => params
          | _ => params
        Parser.parse sqlStr merged (fun sn p => getSubSql sqls f name sn p) f
    | _ => .error (.thrown "out_of_range")
termination_by structural f _ _ _ => f

/-- The claim-side shadowing update: a copy of the bag with one key
rebound (erase then append, so lookups see the new binding). -/
def bindShadow (ps : ParamList) (k : String) (v : Value) : ParamList :=
  ps.erase k ++ [(k, v)]

/-- Textual join with the separator between consecutive items. -/
def joinSep (sep : String) : List String → String
  | [] => ""
  | [s] => s
  | s :: rest => s ++ sep ++ joinSep sep rest

/-- The environment the specification describes for iteration i of an
array loop: a shadowing copy of the outer bag binding the value name to
the unwrapped element and, when an index name was given, the index name
to the integer index. -/
def shadowEnvArr (env : ParamList) (v ix : String) (i : Nat) (e : Json) : ParamList :=
  let env2 := bindShadow env v (unwrapJson e)
  if ix = "" then env2 else bindShadow env2 ix (.int (Int.ofNat i))

/-- The environment the specification describes for the iteration of an
object loop at member key k. -/
def shadowEnvObj (env : ParamList) (v ix : String) (k : String) (e : Json) : ParamList :=
  let env2 := bindShadow env v (unwrapJson e)
  if ix = "" then env2 else bindShadow env2 ix (.str k)

/-- The equality table the specification describes for EQ and NEQ:
Null equals Null; Null differs from every engaged value; same-variant
values compare value-wise (numeric, byte-wise, structural); engaged
values of different variants are unequal. -/
def specEQ : ParamItem → ParamItem → Bool
  | none, none => true
  | none, some _ => false
  | some _, none => false
  | some (.int a), some (.int b) => a == b
  | some (.str a), some (.str b) => a == b
  | some (.json a), some (.json b) => Json.beq a b
  | some _, some _ => false

/-- An unset std::function subSqlGetter_: invoking it throws
bad_function_call. Used as the resolver for templates that never invoke
a sub-template. -/
def badFunctionCall : Getter := fun _ _ => .error (.thrown "bad_function_call")

/-- Registry with one entry t whose main section is "${x}" with a
declared default x = "foo". -/
def c8reg : Json := .obj [("t", .obj [("main", .obj [("sql", .str "${x}"),
  ("params", .obj [("x", .str "foo")])])])]

/-- Registry whose main section invokes sub with no arguments; sub
prints the parameter secret. -/
def c9reg : Json := .obj [("t", .obj [("main", .str "@sub()"),
  ("sub", .obj [("sql", .str "${secret}")])])]

/-- Registry whose main section invokes sub with the explicit argument
x = null; sub prints x and declares the default x = "d". -/
def c10reg : Json := .obj [("t", .obj [("main", .str "@sub(x=null)"),
  ("sub", .obj [("sql", .str "${x}"), ("params", .obj [("x", .str "d")])])])]

/-! Supporting lemmas about the association-list map operations. -/

theorem lookup_cons {α : Type} (k a : String) (v : α) (t : List (String × α)) :
    List.lookup k ((a, v) :: t) = if k = a then some v else List.lookup k t := by
  by_cases hk : k = a
  · simp [List.lookup, hk]
  · have hb : (k == a) = false := by simp [hk]
    simp [List.lookup, hb, hk]

theorem lookup_append {α : Type} (k : String) (l1 l2 : List (String × α)) :
    List.lookup k (l1 ++ l2) = (List.lookup k l1).or (List.lookup k l2) := by
  induction l1 with
  | nil => simp
  | cons h t ih =>
    rcases h with ⟨a, v⟩
    rw [List.cons_append, lookup_cons, lookup_cons]
    by_cases hk : k = a <;> simp [hk, ih]

theorem lookup_none_of_not_mem_keys {α : Type} (k : String) (ds : List (String × α))
    (h : k ∉ ds.map Prod.fst) : List.lookup k ds = none := by
  induction ds with
  | nil => simp
  | cons hd t ih =>
    rcases hd with ⟨a, v⟩
    have hka : ¬ k = a := by rintro rfl; exact h (by simp)
    have ht : k ∉ t.map Prod.fst := by intro hm; exact h (by simp [hm])
    rw [lookup_cons]
    simp [hka, ih ht]

theorem find_erase_self (ps : ParamList) (k : String) : (ps.erase k).find k = none := by
  induction ps with
  | nil => rfl
  | cons hd t ih =>
    rcases hd with ⟨a, v⟩
    by_cases hk : a = k
    · simpa [ParamList.erase, ParamList.find, hk] using ih
    · have : k ≠ a := fun h => hk h.symm
      simpa [ParamList.erase, ParamList.find, hk, lookup_cons, this] using ih

theorem find_erase_ne (ps : ParamList) (k k2 : String) (h : k2 ≠ k) :
    (ps.erase k).find k2 = ps.find k2 := by
  induction ps with
  | nil => rfl
  | cons hd t ih =>
    rcases hd with ⟨a, v⟩
    by_cases hk : a = k
    · subst hk
      simpa [ParamList.erase, ParamList.find, lookup_cons, h] using ih
    · by_cases h2 : k2 = a
      · simp [ParamList.erase, ParamList.find, hk, lookup_cons, h2]
      · simpa [ParamList.erase, ParamList.find, hk, lookup_cons, h2] using ih

theorem erase_append (ps qs : ParamList) (k : String) :
    (ps ++ qs).erase k = ps.erase k ++ qs.erase k := by
  simp [ParamList.erase, List.filter_append]

theorem erase_erase_self (ps : ParamList) (k : String) :
    (ps.erase k).erase k = ps.erase k := by
  simp [ParamList.erase, List.filter_filter]

theorem erase_comm (ps : ParamList) (k1 k2 : String) :
    (ps.erase k1).erase k2 = (ps.erase k2).erase k1 := by
  simp only [ParamList.erase, List.filter_filter]
  congr 1
  funext p
  by_cases h1 : p.1 = k1 <;> by_cases h2 : p.1 = k2 <;> simp [h1, h2]

theorem erase_singleton_self (k : String) (v : Value) :
    ParamList.erase [(k, v)] k = [] := by
  simp [ParamList.erase]

theorem erase_singleton_ne (k k2 : String) (v : Value) (h : k ≠ k2) :
    ParamList.erase [(k, v)] k2 = [(k, v)] := by
  simp [ParamList.erase, h]

theorem emplace_after_erase (ps : ParamList) (k : String) (v : Value) :
    (ps.erase k).emplace k v = ps.erase k ++ [(k, v)] := by
  simp [ParamList.emplace, find_erase_self]

theorem find_emplace_self (ps : ParamList) (k : String) (v : Value) :
    (ps.emplace k v).find k = some ((ps.find k).getD v) := by
  unfold ParamList.emplace
  cases h : ps.find k with
  | some w => simp [h]
  | none =>
    simp only [h, Option.isSome_none, Bool.false_eq_true, if_false, Option.getD_none]
    show List.lookup k (ps ++ [(k, v)]) = some v
    rw [lookup_append]
    have : List.lookup k ps = none := h
    simp [this, lookup_cons]

theorem find_emplace_ne (ps : ParamList) (k k2 : String) (v : Value) (h : k2 ≠ k) :
    (ps.emplace k v).find k2 = ps.find k2 := by
  unfold ParamList.emplace
  cases hf : (ps.find k).isSome with
  | true => simp
  | false =>
    simp only [Bool.false_eq_true, if_false]
    show List.lookup k2 (ps ++ [(k, v)]) = ps.find k2
    rw [lookup_append, lookup_cons]
    simp [h, ParamList.find]

theorem bind_ok {α β : Type} (a : α) (f : α → Except Err β) :
    (Except.ok a >>= f) = f a := rfl

theorem bind_error {α β : Type} (e : Err) (f : α → Except Err β) :
    ((Except.error e : Except Err α) >>= f) = Except.error e := rfl

/-! The shadowing algebra behind the for-loop environment. -/

theorem setParamAndIndex_eq_bindShadow (v ix : String) (np : ParamList) (e : Json)
    (idxVal : Value) :
    setParamAndIndex v ix np e idxVal =
      (if ix = "" then bindShadow np v (unwrapJson e)
       else bindShadow (bindShadow np v (unwrapJson e)) ix idxVal) := by
  unfold setParamAndIndex bindShadow
  by_cases h : ix = "" <;> simp [h, emplace_after_erase]

theorem erase_bindShadow_self (ps : ParamList) (k : String) (v : Value) :
    ParamList.erase (bindShadow ps k v) k = ps.erase k := by
  unfold bindShadow
  rw [erase_append, erase_erase_self, erase_singleton_self, List.append_nil]

theorem erase_bindShadow_ne (ps : ParamList) (k k2 : String) (v : Value) (h : k ≠ k2) :
    ParamList.erase (bindShadow ps k v) k2 = bindShadow (ps.erase k2) k v := by
  unfold bindShadow
  rw [erase_append, erase_singleton_ne _ _ _ h, erase_comm]

theorem bindShadow_bindShadow_self (ps : ParamList) (k : String) (v1 v2 : Value) :
    bindShadow (bindShadow ps k v1) k v2 = bindShadow ps k v2 := by
  show ParamList.erase (bindShadow ps k v1) k ++ [(k, v2)] = bindShadow ps k v2
  rw [erase_bindShadow_self]
  rfl

/-- Rebinding the loop names twice shadows the first rebinding
completely: the iteration environments depend only on the base bag. -/
theorem setParamAndIndex_setParamAndIndex (v ix : String) (np : ParamList)
    (e1 e2 : Json) (i1 i2 : Value) :
    setParamAndIndex v ix (setParamAndIndex v ix np e1 i1) e2 i2
      = setParamAndIndex v ix np e2 i2 := by
  rw [setParamAndIndex_eq_bindShadow, setParamAndIndex_eq_bindShadow,
    setParamAndIndex_eq_bindShadow]
  by_cases hix : ix = ""
  · simp only [hix, if_true]
    exact bindShadow_bindShadow_self _ _ _ _
  · simp only [hix, if_false]
    by_cases hv : v = ix
    · subst hv
      simp only [bindShadow_bindShadow_self]
    · have hL : bindShadow (bindShadow (bindShadow (bindShadow np v (unwrapJson e1)) ix i1)
          v (unwrapJson e2)) ix i2
          = ParamList.erase (ParamList.erase np ix) v ++ [(v, unwrapJson e2)] ++ [(ix, i2)] := by
        show ParamList.erase (bindShadow (bindShadow (bindShadow np v (unwrapJson e1)) ix i1)
          v (unwrapJson e2)) ix ++ [(ix, i2)] = _
        rw [erase_bindShadow_ne _ _ _ _ hv, erase_bindShadow_self,
          erase_bindShadow_ne _ _ _ _ hv, bindShadow_bindShadow_self]
        rfl
      have hR : bindShadow (bindShadow np v (unwrapJson e2)) ix i2
          = ParamList.erase (ParamList.erase np ix) v ++ [(v, unwrapJson e2)] ++ [(ix, i2)] := by
        show ParamList.erase (bindShadow np v (unwrapJson e2)) ix ++ [(ix, i2)] = _
        rw [erase_bindShadow_ne _ _ _ _ hv]
        rfl
      exact hL.trans hR.symm

theorem joinSep_cons (sep s : String) (rest : List String) (h : rest ≠ []) :
    joinSep sep (s :: rest) = s ++ sep ++ joinSep sep rest := by
  cases rest with
  | nil => exact absurd rfl h
  | cons a t => rfl

/-- The array iteration of the for loop, computed in closed form: when
every body rendering succeeds, the loop accumulates the join of the
renderings, and the iteration environments depend only on the base bag
(the rebinding shadows the previous iteration completely). -/
theorem runLoopArrWith_formula (renderBody : ParamList → Except Err String)
    (v ix sepStr : String) (total : Nat) (base : ParamList) (rs : Nat → String) :
    ∀ (rest : List Json) (i : Nat) (np : ParamList),
      (∀ e idxVal, setParamAndIndex v ix np e idxVal = setParamAndIndex v ix base e idxVal) →
      i + rest.length = total →
      (∀ j (hj : j < rest.length),
        renderBody (setParamAndIndex v ix base (rest.get ⟨j, hj⟩) (.int (Int.ofNat (i + j))))
          = .ok (rs (i + j))) →
      runLoopArrWith renderBody v ix sepStr total np i rest
        = .ok (joinSep sepStr ((List.range rest.length).map (fun j => rs (i + j))))
  | [], i, np, _, _, _ => by simp [runLoopArrWith, joinSep]
  | e :: rest, i, np, hinv, htot, hr => by
    have h0 : renderBody (setParamAndIndex v ix base e (.int (Int.ofNat i))) = .ok (rs i) := by
      have h00 := hr 0 (by simp)
      simpa using h00
    have hnp2 : setParamAndIndex v ix np e (.int (Int.ofNat i))
        = setParamAndIndex v ix base e (.int (Int.ofNat i)) := hinv _ _
    have hinv2 : ∀ e2 idxVal,
        setParamAndIndex v ix (setParamAndIndex v ix np e (.int (Int.ofNat i))) e2 idxVal
          = setParamAndIndex v ix base e2 idxVal := by
      intro e2 idxVal
      rw [hnp2, setParamAndIndex_setParamAndIndex]
    have htot2 : (i + 1) + rest.length = total := by
      simp only [List.length_cons] at htot
      omega
    have hr2 : ∀ j (hj : j < rest.length),
        renderBody (setParamAndIndex v ix base (rest.get ⟨j, hj⟩)
          (.int (Int.ofNat ((i + 1) + j)))) = .ok (rs ((i + 1) + j)) := by
      intro j hj
      have hj1 : j + 1 < (e :: rest).length := by
        simp only [List.length_cons]
        omega
      have hstep := hr (j + 1) hj1
      have harith : i + (j + 1) = (i + 1) + j := by omega
      simpa [harith] using hstep
    have ih := runLoopArrWith_formula renderBody v ix sepStr total base rs rest (i + 1)
      (setParamAndIndex v ix np e (.int (Int.ofNat i))) hinv2 htot2 hr2
    rw [hnp2] at ih
    simp only [runLoopArrWith, hnp2, h0, ih]
    cases rest with
    | nil =>
      have hterm : i + 1 = total := by
        simp only [List.length_nil] at htot2
        omega
      simp [hterm, joinSep, bind_ok]
    | cons a rest2 =>
      have hne : i + 1 ≠ total := by
        simp only [List.length_cons] at htot2
        omega
      have hfun : ((fun j => rs (i + j)) ∘ Nat.succ) = (fun j => rs ((i + 1) + j)) := by
        funext j
        simp only [Function.comp]
        congr 1
        omega
      have hrsucc : ((List.range ((a :: rest2).length + 1)).map (fun j => rs (i + j)))
          = rs i :: ((List.range (a :: rest2).length).map (fun j => rs ((i + 1) + j))) := by
        rw [List.range_succ_eq_map]
        simp only [List.map_cons, List.map_map, Nat.add_zero]
        rw [hfun]
      simp only [List.length_cons] at hrsucc ⊢
      rw [hrsucc]
      rw [joinSep_cons _ _ _ (by simp)]
      simp [hne, String.append_assoc, bind_ok]

/-- The object iteration of the for loop, in closed form, mirroring
runLoopArrWith_formula with member keys as indices. -/
theorem runLoopObjWith_formula (renderBody : ParamList → Except Err String)
    (v ix sepStr : String) (collJson : Json) (total : Nat) (base : ParamList)
    (rs : Nat → String) :
    ∀ (rest : List String) (i : Nat) (np : ParamList),
      (∀ e idxVal, setParamAndIndex v ix np e idxVal = setParamAndIndex v ix base e idxVal) →
      i + rest.length = total →
      (∀ j (hj : j < rest.length),
        renderBody (setParamAndIndex v ix base (collJson.getMem (rest.get ⟨j, hj⟩))
          (.str (rest.get ⟨j, hj⟩))) = .ok (rs (i + j))) →
      runLoopObjWith renderBody v ix sepStr collJson total np i rest
        = .ok (joinSep sepStr ((List.range rest.length).map (fun j => rs (i + j))))
  | [], i, np, _, _, _ => by simp [runLoopObjWith, joinSep]
  | k :: rest, i, np, hinv, htot, hr => by
    have h0 : renderBody (setParamAndIndex v ix base (collJson.getMem k) (.str k))
        = .ok (rs i) := by
      have h00 := hr 0 (by simp)
      simpa using h00
    have hnp2 : setParamAndIndex v ix np (collJson.getMem k) (.str k)
        = setParamAndIndex v ix base (collJson.getMem k) (.str k) := hinv _ _
    have hinv2 : ∀ e2 idxVal,
        setParamAndIndex v ix (setParamAndIndex v ix np (collJson.getMem k) (.str k)) e2 idxVal
          = setParamAndIndex v ix base e2 idxVal := by
      intro e2 idxVal
      rw [hnp2, setParamAndIndex_setParamAndIndex]
    have htot2 : (i + 1) + rest.length = total := by
      simp only [List.length_cons] at htot
      omega
    have hr2 : ∀ j (hj : j < rest.length),
        renderBody (setParamAndIndex v ix base (collJson.getMem (rest.get ⟨j, hj⟩))
          (.str (rest.get ⟨j, hj⟩))) = .ok (rs ((i + 1) + j)) := by
      intro j hj
      have hj1 : j + 1 < (k :: rest).length := by
        simp only [List.length_cons]
        omega
      have hstep := hr (j + 1) hj1
      have harith : i + (j + 1) = (i + 1) + j := by omega
      simpa [harith] using hstep
    have ih := runLoopObjWith_formula renderBody v ix sepStr collJson total base rs rest (i + 1)
      (setParamAndIndex v ix np (collJson.getMem k) (.str k)) hinv2 htot2 hr2
    rw [hnp2] at ih
    simp only [runLoopObjWith, hnp2, h0, ih]
    cases rest with
    | nil =>
      have hterm : i + 1 = total := by
        simp only [List.length_nil] at htot2
        omega
      simp [hterm, joinSep, bind_ok]
    | cons a rest2 =>
      have hne : i + 1 ≠ total := by
        simp only [List.length_cons] at htot2
        omega
      have hfun : ((fun j => rs (i + j)) ∘ Nat.succ) = (fun j => rs ((i + 1) + j)) := by
        funext j
        simp only [Function.comp]
        congr 1
        omega
      have hrsucc : ((List.range ((a :: rest2).length + 1)).map (fun j => rs (i + j)))
          = rs i :: ((List.range (a :: rest2).length).map (fun j => rs ((i + 1) + j))) := by
        rw [List.range_succ_eq_map]
        simp only [List.map_cons, List.map_map, Nat.add_zero]
        rw [hfun]
      simp only [List.length_cons] at hrsucc ⊢
      rw [hrsucc]
      rw [joinSep_cons _ _ _ (by simp)]
      simp [hne, String.append_assoc, bind_ok]

theorem shadowEnvArr_eq (env : ParamList) (v ix : String) (i : Nat) (e : Json) :
    shadowEnvArr env v ix i e = setParamAndIndex v ix env e (.int (Int.ofNat i)) := by
  rw [setParamAndIndex_eq_bindShadow]
  rfl

theorem shadowEnvObj_eq (env : ParamList) (v ix : String) (k : String) (e : Json) :
    shadowEnvObj env v ix k e = setParamAndIndex v ix env e (.str k) := by
  rw [setParamAndIndex_eq_bindShadow]
  rfl

/-- C5: for a ForLoopNode over a JSON array or object collection, the
rendered result is the join, by the separator string (evaluated once,
empty when absent or Null), of the body renderings, where the body for
element i is rendered against a shadowing copy of the parameter bag
binding the value name to the unwrapped element and the index name
(when given) to the integer index for arrays or the member key for
objects; the outer bag env is passed by value and left untouched. -/
theorem c5_forLoop_join_law (g : Getter) (f : Nat) (v ix : String) (coll : ASTNode)
    (sep : Option ASTNode) (body : List ASTNode) (env : ParamList) (sepItem : ParamItem)
    (sepStr : String)
    (hsep : sepOf (ASTNode.getValue g f) sep env = .ok sepItem)
    (hsepStr : sepToStr sepItem = .ok sepStr) :
    (∀ (elems : List Json) (rs : Nat → String),
      ASTNode.getValue g f coll env = .ok (some (.json (.arr elems))) →
      (∀ j (hj : j < elems.length),
        generateSqlRoot (ASTNode.getValue g f) body (shadowEnvArr env v ix j (elems.get ⟨j, hj⟩))
          = .ok (rs j)) →
      ASTNode.getValue g (f + 1) (.forLoop v ix coll sep body) env
        = .ok (some (.str (joinSep sepStr ((List.range elems.length).map rs)))))
    ∧
    (∀ (members : List (String × Json)) (rs : Nat → String),
      ASTNode.getValue g f coll env = .ok (some (.json (.obj members))) →
      (∀ j (hj : j < members.length),
        generateSqlRoot (ASTNode.getValue g f) body
          (shadowEnvObj env v ix (members.get ⟨j, hj⟩).1
            (Json.getMem (.obj members) (members.get ⟨j, hj⟩).1))
          = .ok (rs j)) →
      ASTNode.getValue g (f + 1) (.forLoop v ix coll sep body) env
        = .ok (some (.str (joinSep sepStr ((List.range members.length).map rs))))) := by
  constructor
  · intro elems rs hcoll hbody
    have hloop := runLoopArrWith_formula (generateSqlRoot (ASTNode.getValue g f) body) v ix sepStr
      elems.length env rs elems 0 env (fun _ _ => rfl) (by omega)
      (by
        intro j hj
        have hb := hbody j hj
        rw [shadowEnvArr_eq] at hb
        simpa using hb)
    simp only [ASTNode.getValue, hcoll, hsep, hsepStr, bind_ok, collToJson]
    rw [hloop]
    simp [bind_ok]
  · intro members rs hcoll hbody
    have hloop := runLoopObjWith_formula (generateSqlRoot (ASTNode.getValue g f) body) v ix sepStr
      (.obj members) members.length env rs (members.map Prod.fst) 0 env (fun _ _ => rfl)
      (by simp)
      (by
        intro j hj
        have hj2 : j < members.length := by simpa using hj
        have hb := hbody j hj2
        rw [shadowEnvObj_eq] at hb
        have hget : (members.map Prod.fst).get ⟨j, hj⟩ = (members.get ⟨j, hj2⟩).1 := by
          simp [List.getElem_map]
        rw [hget]
        simpa using hb)
    simp only [ASTNode.getValue, hcoll, hsep, hsepStr, bind_ok, collToJson]
    rw [hloop]
    simp [bind_ok]

/-- C1 counterexample: a ForLoopNode whose collection expression
evaluates to Integer 5 (not a Json value) fails with
bad_variant_access; it does not yield the empty string as the claim
states. -/
theorem c1_counterexample :
    ASTNode.getValue (fun _ _ => .error (.thrown "bad_function_call")) 2
        (.forLoop "x" "" (.number 5) none [.normalText "b"]) []
      = .error .badVariantAccess ∧
    ASTNode.getValue (fun _ _ => .error (.thrown "bad_function_call")) 2
        (.forLoop "x" "" (.number 5) none [.normalText "b"]) []
      ≠ .ok (some (.str "")) := by
  constructor
  · decide
  · decide

/-- C1 (amended): evaluating a ForLoopNode first evaluates the
collection expression; when the result is Null, or is a Json value that
is neither an array nor an object, the node yields the empty string
(provided the separator evaluation also succeeds, which it always does
for the parser-built String literal separator); but when the collection
result is an Integer or a String value, std::get throws
bad_variant_access instead of yielding the empty string. -/
theorem c1_amended_forLoop_degenerate (g : Getter) (f : Nat) (v ix : String)
    (coll : ASTNode) (sep : Option ASTNode) (body : List ASTNode) (env : ParamList)
    (cv : ParamItem) (hcoll : ASTNode.getValue g f coll env = .ok cv) :
    ((cv = none ∨ ∃ j, cv = some (.json j) ∧ j.isArray = false ∧ j.isObject = false) →
      ∀ (sepItem : ParamItem) (sepStr : String),
        sepOf (ASTNode.getValue g f) sep env = .ok sepItem →
        sepToStr sepItem = .ok sepStr →
        ASTNode.getValue g (f + 1) (.forLoop v ix coll sep body) env = .ok (some (.str "")))
    ∧ (((∃ n, cv = some (.int n)) ∨ (∃ s, cv = some (.str s))) →
      ASTNode.getValue g (f + 1) (.forLoop v ix coll sep body) env
        = .error .badVariantAccess) := by
  constructor
  · intro hdeg sepItem sepStr hsep hsepStr
    rcases hdeg with hnone | ⟨j, hj, hna, hno⟩
    · subst hnone
      simp only [ASTNode.getValue, hcoll, hsep, hsepStr, bind_ok, collToJson]
    · subst hj
      simp only [ASTNode.getValue, hcoll, hsep, hsepStr, bind_ok, collToJson]
      cases j with
      | null => rfl
      | int _ => rfl
      | str _ => rfl
      | bool _ => rfl
      | arr _ => simp [Json.isArray] at hna
      | obj _ => simp [Json.isObject] at hno
  · intro hbad
    rcases hbad with ⟨n, hn⟩ | ⟨s, hs⟩
    · subst hn
      simp only [ASTNode.getValue, hcoll, bind_ok, collToJson, bind_error]
    · subst hs
      simp only [ASTNode.getValue, hcoll, bind_ok, collToJson, bind_error]

/-- Witness for c1_amended_forLoop_degenerate: a collection that is a
Json integer (neither array nor object) yields the empty string. -/
theorem c1_amended_witness :
    ASTNode.getValue (fun _ _ => .error (.thrown "bad_function_call")) 2
        (.forLoop "x" "" (.var "c") none [.normalText "b"]) [("c", .json (.int 7))]
      = .ok (some (.str "")) :=
  (c1_amended_forLoop_degenerate (fun _ _ => .error (.thrown "bad_function_call")) 1
    "x" "" (.var "c") none [.normalText "b"] [("c", .json (.int 7))]
    (some (.json (.int 7))) (by decide)).1
    (Or.inr ⟨.int 7, rfl, rfl, rfl⟩) none "" (by decide) (by decide)

/-- Witness for c5_forLoop_join_law: a two-element array loop with
separator "," and body rendering the value followed by "!". -/
theorem c5_witness :
    ASTNode.getValue (fun _ _ => .error (.thrown "bad_function_call")) 3
        (.forLoop "x" "i" (.var "xs") (some (.string ",")) [.var "x", .normalText "!"])
        [("xs", .json (.arr [.int 1, .str "b"]))]
      = .ok (some (.str "1!,b!")) := by
  have h := (c5_forLoop_join_law (fun _ _ => .error (.thrown "bad_function_call")) 2 "x" "i"
    (.var "xs") (some (.string ",")) [.var "x", .normalText "!"]
    [("xs", .json (.arr [.int 1, .str "b"]))] (some (.str ",")) ","
    (by decide) (by decide)).1 [.int 1, .str "b"]
    (fun j => if j = 0 then "1!" else "b!")
    (by decide)
    (by decide)
  exact h.trans (by decide)

/-- C6: for operand values vl and vr, EQNode yields Integer 1 when
specEQ holds of them and Integer 0 otherwise, and NEQNode yields the
exact negation; the result is always Integer 0 or Integer 1. -/
theorem c6_eq_neq_semantics (g : Getter) (f : Nat) (l r : ASTNode) (env : ParamList)
    (vl vr : ParamItem)
    (hl : ASTNode.getValue g f l env = .ok vl)
    (hr : ASTNode.getValue g f r env = .ok vr) :
    ASTNode.getValue g (f + 1) (.eq l r) env
        = .ok (some (.int (if specEQ vl vr then 1 else 0)))
      ∧ ASTNode.getValue g (f + 1) (.neq l r) env
        = .ok (some (.int (if specEQ vl vr then 0 else 1))) := by
  constructor <;>
  · simp only [ASTNode.getValue, hl, hr, bind_ok]
    rcases vl with _ | w1
    · rcases vr with _ | w2
      · simp [specEQ]
      · rcases w2 with n | s | j <;> simp [specEQ]
    · rcases vr with _ | w2
      · rcases w1 with n | s | j <;> simp [specEQ]
      · rcases w1 with n1 | s1 | j1 <;> rcases w2 with n2 | s2 | j2 <;>
          simp [specEQ, Json.beq_iff]

/-- Witness for c6_eq_neq_semantics: Integer 3 versus String "a",
engaged values of different variants. -/
theorem c6_witness :
    ASTNode.getValue (fun _ _ => .error (.thrown "bad_function_call")) 2
        (.eq (.number 3) (.string "a")) [] = .ok (some (.int 0))
      ∧ ASTNode.getValue (fun _ _ => .error (.thrown "bad_function_call")) 2
        (.neq (.number 3) (.string "a")) [] = .ok (some (.int 1)) := by
  have h := c6_eq_neq_semantics (fun _ _ => .error (.thrown "bad_function_call")) 1
    (.number 3) (.string "a") [] (some (.int 3)) (some (.str "a"))
    (by decide) (by decide)
  exact ⟨h.1.trans (by decide), h.2.trans (by decide)⟩

/-- C7: toBool holds exactly when the value is not Null, not Integer 0
and not String ""; every Json value, a JSON null included, is truthy. -/
theorem c7_truthiness :
    (∀ v : ParamItem,
      (toBool v = true ↔ v ≠ none ∧ v ≠ some (.int 0) ∧ v ≠ some (.str "")))
    ∧ (∀ j : Json, toBool (some (.json j)) = true) := by
  constructor
  · intro v
    rcases v with _ | w
    · simp [toBool]
    · rcases w with n | s | j
      · by_cases h : n = 0 <;> simp [toBool, h]
      · by_cases h : s = "" <;> simp [toBool, h]
      · simp [toBool]
  · intro j
    rfl

/-- Witness for c7_truthiness: a JSON null parameter is truthy. -/
theorem c7_witness : toBool (some (.json .null)) = true :=
  (c7_truthiness.1 (some (.json .null))).mpr (by decide)

/-- C3 counterexample: an out-of-bounds ArrayNode index on a JSON array
yields the engaged JSON null value, not Null; the engaged JSON null is
even truthy, unlike Null. -/
theorem c3_counterexample :
    ASTNode.getValue (fun _ _ => .error (.thrown "bad_function_call")) 2
        (.array (.var "a") (.number 0)) [("a", .json (.arr []))]
      = .ok (some (.json .null)) ∧
    ASTNode.getValue (fun _ _ => .error (.thrown "bad_function_call")) 2
        (.array (.var "a") (.number 0)) [("a", .json (.arr []))]
      ≠ .ok none ∧
    toBool (some (.json .null)) = true := by
  refine ⟨by decide, by decide, rfl⟩

/-- C3 (amended): a suffix step on a base value that is Null or not a
Json value yields Null (so chained suffixes after a Null step stay
Null), and MemberNode yields Null when the base object lacks the key or
is not an object; ArrayNode with an in-range integer index on a JSON
array yields the unwrapped element and with a string index naming a
member of a JSON object yields the unwrapped member; but every other
failed ArrayNode lookup on a Json base (wrong json type, out-of-bounds
index, missing key, or an index value of Json type) yields the engaged
JSON null value rather than Null, and a Null index value makes the code
dereference a disengaged optional (undefined behaviour, modelled as
Err.derefDisengaged) rather than yield Null. -/
theorem c3_amended_suffix_steps (g : Getter) (f : Nat) (l r : ASTNode) (env : ParamList) :
    (∀ vl, ASTNode.getValue g f l env = .ok vl →
      (vl = none ∨ (∃ n, vl = some (.int n)) ∨ (∃ s, vl = some (.str s))) →
      ASTNode.getValue g (f + 1) (.member l r) env = .ok none
        ∧ ASTNode.getValue g (f + 1) (.array l r) env = .ok none)
    ∧
    (∀ j k, ASTNode.getValue g f l env = .ok (some (.json j)) →
      ASTNode.getValue g f r [] = .ok (some (.str k)) →
      (j.isObject = false ∨ j.lookupMem k = none) →
      ASTNode.getValue g (f + 1) (.member l r) env = .ok none)
    ∧
    (∀ j n, ASTNode.getValue g f l env = .ok (some (.json j)) →
      ASTNode.getValue g f r env = .ok (some (.int n)) →
      j.isArray = true → 0 ≤ n → n < (j.size : Int) →
      ASTNode.getValue g (f + 1) (.array l r) env
        = .ok (some (unwrapJson (Json.getIdx j n.toNat))))
    ∧
    (∀ j k jv, ASTNode.getValue g f l env = .ok (some (.json j)) →
      ASTNode.getValue g f r env = .ok (some (.str k)) →
      j.isObject = true → j.lookupMem k = some jv →
      ASTNode.getValue g (f + 1) (.array l r) env = .ok (some (unwrapJson jv)))
    ∧
    (∀ j vr, ASTNode.getValue g f l env = .ok (some (.json j)) →
      ASTNode.getValue g f r env = .ok (some vr) →
      ((∃ n, vr = .int n ∧ ¬(j.isArray = true ∧ 0 ≤ n ∧ n < (j.size : Int))) ∨
       (∃ k, vr = .str k ∧ ¬(j.isObject = true ∧ (j.lookupMem k).isSome = true)) ∨
       (∃ j2, vr = .json j2)) →
      ASTNode.getValue g (f + 1) (.array l r) env = .ok (some (.json .null)))
    ∧
    (∀ j, ASTNode.getValue g f l env = .ok (some (.json j)) →
      ASTNode.getValue g f r env = .ok none →
      ASTNode.getValue g (f + 1) (.array l r) env = .error .derefDisengaged) := by
  refine ⟨?_, ?_, ?_, ?_, ?_, ?_⟩
  · intro vl hl hshape
    rcases hshape with h | ⟨n, h⟩ | ⟨s, h⟩ <;> subst h <;>
      exact ⟨by simp only [ASTNode.getValue, hl, bind_ok],
             by simp only [ASTNode.getValue, hl, bind_ok]⟩
  · intro j k hl hk hfail
    simp only [ASTNode.getValue, hl, hk, bind_ok]
    rcases hfail with h | h
    · rw [if_neg]
      rintro ⟨hobj, _⟩
      rw [h] at hobj
      cases hobj
    · rw [if_neg]
      rintro ⟨_, hmem⟩
      rw [h] at hmem
      cases hmem
  · intro j n hl hr harr hge hlt
    simp only [ASTNode.getValue, hl, hr, bind_ok]
    rw [if_pos ⟨harr, hge, hlt⟩]
  · intro j k jv hl hr hobj hmem
    simp only [ASTNode.getValue, hl, hr, bind_ok]
    rw [if_pos ⟨hobj, by rw [hmem]; rfl⟩]
    simp [Json.getMem, hmem]
  · intro j vr hl hr hfail
    rcases hfail with ⟨n, hv, hcond⟩ | ⟨k, hv, hcond⟩ | ⟨j2, hv⟩ <;> subst hv
    · simp only [ASTNode.getValue, hl, hr, bind_ok]
      simp [hcond, unwrapJson]
    · simp only [ASTNode.getValue, hl, hr, bind_ok]
      simp [hcond, unwrapJson]
    · simp only [ASTNode.getValue, hl, hr, bind_ok]
      simp [unwrapJson]
  · intro j hl hr
    simp only [ASTNode.getValue, hl, hr, bind_ok]

/-- Witness for c3_amended_suffix_steps: an out-of-bounds index on a
one-element array yields the engaged JSON null. -/
theorem c3_amended_witness :
    ASTNode.getValue (fun _ _ => .error (.thrown "bad_function_call")) 2
        (.array (.var "a") (.number 3)) [("a", .json (.arr [.int 7]))]
      = .ok (some (.json .null)) :=
  ((c3_amended_suffix_steps (fun _ _ => .error (.thrown "bad_function_call")) 1
      (.var "a") (.number 3) [("a", .json (.arr [.int 7]))]).2.2.2.2.1)
    (.arr [.int 7]) (.int 3) (by decide) (by decide)
    (Or.inl ⟨3, rfl, by decide⟩)

/-- C2: the digit branch of Lexer::next is buggy. A maximal digit run
of length one lexes to an Integer token, and a run starting with 0 is
normalized (a run of zeros to "0", "00123" to "123"); but a run longer
than one digit that does not start with 0 falls through every return
and raises the lexical error, so "12" does not lex to an Integer token.
This contradicts the claim and the grammar comment in SqlGenerator.h
(Integer consists of a nonzero digit followed by digits, or the digit
zero with the zero prefix removed). -/
theorem c2_lexer_digit_run_bug :
    Lexer.next { sql := "12".data, pos := 0, parenDepth := 1, cancelOnceLParen := false }
      = .error (.thrown "Invalid expression(2): ")
    ∧ Parser.parse "${12}" [] badFunctionCall 6
      = .error (.thrown "Invalid expression(4): \x7d")
    ∧ Lexer.next { sql := "5".data, pos := 0, parenDepth := 1, cancelOnceLParen := false }
      = .ok (⟨.Integer, "5"⟩,
        { sql := "5".data, pos := 1, parenDepth := 1, cancelOnceLParen := false })
    ∧ Lexer.next { sql := "00123".data, pos := 0, parenDepth := 1, cancelOnceLParen := false }
      = .ok (⟨.Integer, "123"⟩,
        { sql := "00123".data, pos := 5, parenDepth := 1, cancelOnceLParen := false })
    ∧ Lexer.next { sql := "000".data, pos := 0, parenDepth := 1, cancelOnceLParen := false }
      = .ok (⟨.Integer, "0"⟩,
        { sql := "000".data, pos := 3, parenDepth := 1, cancelOnceLParen := false }) := by
  refine ⟨by decide, by decide, by decide, by decide, by decide⟩

/-- C4 counterexample: in the template "@s(x" the parser reaches
Parser::match expecting RParen while looking at Done; match only
asserts, so parsing ends in an assertion failure (a process abort in
debug builds, no check at all under NDEBUG), not in a raised
template-compile error as the claim states. -/
theorem c4_counterexample :
    Parser.parse "@s(x" [] badFunctionCall 6 = .error .assertFail := by decide

/-- C4 (amended): an unexpected token at the start of the expr
production raises a runtime error naming the token, and input left
unconsumed by the lexer after the top-level sql production raises the
runtime error "Invalid expression."; but an unexpected token kind at a
Parser::match call is checked only by assert, which aborts rather than
raising a template-compile failure. -/
theorem c4_amended_parse_errors :
    Parser.parse "${}" [] badFunctionCall 6
      = .error (.thrown "Invalid expression. Unexpected token: RBrace")
    ∧ Parser.parse "abc@else xyz" [] badFunctionCall 6
      = .error (.thrown "Invalid expression.")
    ∧ Parser.parse "@if(x" [] badFunctionCall 10 = .error .assertFail := by
  refine ⟨by decide, by decide, by decide⟩

/-- The lookup law of the default-injection loop: after merging, a key
reads as the caller value when supplied, else as the converted declared
default, else as absent. -/
theorem mergeDefaults_find (ds : List (String × Json)) (params : ParamList) (k : String) :
    ParamList.find (mergeDefaults ds params) k
      = (match params.find k with
         | some v => some v
         | none => (List.lookup k ds).map convertDefault) := by
  induction ds generalizing params with
  | nil =>
    cases h : ParamList.find params k <;> simp [mergeDefaults, h]
  | cons hd rest ih =>
    rcases hd with ⟨k1, d⟩
    by_cases hk : k = k1
    · subst hk
      rw [mergeDefaults, ih, find_emplace_self, lookup_cons]
      cases h : ParamList.find params k <;> simp [h]
    · rw [mergeDefaults, ih, find_emplace_ne _ _ _ _ hk, lookup_cons]
      simp [hk]

/-- The argument-collection loop never creates a binding for a key that
is not an argument name. -/
theorem collect_find_none (ev : ASTNode → ParamList → Except Err ParamItem) :
    ∀ (args : List (String × ASTNode)) (env acc bag : ParamList) (k : String),
      collectParamsWith ev args env acc = .ok bag →
      k ∉ args.map Prod.fst →
      ParamList.find acc k = none →
      ParamList.find bag k = none
  | [], env, acc, bag, k, hc, _, hacc => by
    simp only [collectParamsWith] at hc
    cases hc
    exact hacc
  | (k2, node) :: rest, env, acc, bag, k, hc, hnotin, hacc => by
    have hk2 : k ≠ k2 := by
      intro hh
      exact hnotin (by simp [hh])
    have hrest : k ∉ rest.map Prod.fst := by
      intro hm
      exact hnotin (by simp [hm])
    simp only [collectParamsWith] at hc
    cases hv : ev node env with
    | error e => rw [hv] at hc; cases hc
    | ok v =>
      rw [hv] at hc
      cases v with
      | none =>
        exact collect_find_none ev rest env acc bag k hc hrest hacc
      | some w =>
        refine collect_find_none ev rest env (acc.emplace k2 w) bag k hc hrest ?_
        rw [find_emplace_ne _ _ _ _ hk2]
        exact hacc

/-- An argument key whose every bound expression evaluates to Null is
skipped by the collection loop. -/
theorem collect_null_skipped (ev : ASTNode → ParamList → Except Err ParamItem) :
    ∀ (args : List (String × ASTNode)) (env acc bag : ParamList) (k : String),
      collectParamsWith ev args env acc = .ok bag →
      (∀ node, (k, node) ∈ args → ev node env = .ok none) →
      ParamList.find acc k = none →
      ParamList.find bag k = none
  | [], env, acc, bag, k, hc, _, hacc => by
    simp only [collectParamsWith] at hc
    cases hc
    exact hacc
  | (k2, node) :: rest, env, acc, bag, k, hc, hnull, hacc => by
    have hrest : ∀ node2, (k, node2) ∈ rest → ev node2 env = .ok none := by
      intro node2 hm
      exact hnull node2 (by simp [hm])
    simp only [collectParamsWith] at hc
    cases hv : ev node env with
    | error e => rw [hv] at hc; cases hc
    | ok v =>
      rw [hv] at hc
      cases v with
      | none =>
        exact collect_null_skipped ev rest env acc bag k hc hrest hacc
      | some w =>
        by_cases hk2 : k = k2
        · subst hk2
          have := hnull node (by simp)
          rw [hv] at this
          cases this
        · refine collect_null_skipped ev rest env (acc.emplace k2 w) bag k hc hrest ?_
          rw [find_emplace_ne _ _ _ _ hk2]
          exact hacc

/-- C8: the default-injection loop of getSubSql binds each declared
default exactly when the caller did not supply the key (caller keys
win, and the conversion is type-preserving); consequently, on the
concrete registry with default x = "foo", rendering the main section
with an empty bag equals rendering it with x = "foo" supplied, and a
caller-supplied x = "bar" wins over the default. -/
theorem c8_default_injection :
    (∀ (ds : List (String × Json)) (params : ParamList) (k : String),
      ParamList.find (mergeDefaults ds params) k
        = (match params.find k with
           | some v => some v
           | none => (List.lookup k ds).map convertDefault))
    ∧ getSubSql c8reg 6 "t" "main" [] = .ok "foo"
    ∧ getSubSql c8reg 6 "t" "main" [] = getSubSql c8reg 6 "t" "main" [("x", .str "foo")]
    ∧ getSubSql c8reg 6 "t" "main" [("x", .str "bar")] = .ok "bar" := by
  refine ⟨mergeDefaults_find, by decide, by decide, by decide⟩

/-- C9: a SubSqlNode evaluates its argument expressions in the caller
environment and hands the resolver a bag built only from those
arguments; after the invoked section merges its own declared defaults,
any key that is neither an explicit argument name nor a declared
default name is absent, so no other caller parameter is visible inside
the sub-template. On the concrete registry, the caller parameter secret
is invisible inside sub and the invocation renders the empty string. -/
theorem c9_subsql_scoping :
    (∀ (g : Getter) (f : Nat) (name : String) (args : List (String × ASTNode))
       (env : ParamList),
      ASTNode.getValue g (f + 1) (.subSql name args) env
        = (do
            let subParams ← collectParamsWith (ASTNode.getValue g f) args env []
            let s ← g name subParams
            Except.ok (some (.str s))))
    ∧
    (∀ (g : Getter) (f : Nat) (args : List (String × ASTNode)) (env : ParamList)
       (ds : List (String × Json)) (bag : ParamList) (k : String),
      collectParamsWith (ASTNode.getValue g f) args env [] = .ok bag →
      k ∉ args.map Prod.fst → k ∉ ds.map Prod.fst →
      ParamList.find (mergeDefaults ds bag) k = none)
    ∧ getSubSql c9reg 9 "t" "main" [("secret", .str "x")] = .ok "" := by
  refine ⟨?_, ?_, by decide⟩
  · intro g f name args env
    rfl
  · intro g f args env ds bag k hc hargs hds
    rw [mergeDefaults_find]
    rw [collect_find_none (ASTNode.getValue g f) args env [] bag k hc hargs rfl]
    rw [lookup_none_of_not_mem_keys k ds hds]
    rfl

/-- Witness for c9_subsql_scoping: with no arguments and defaults
x = "d", a caller key secret is absent from the merged sub-template
bag. -/
theorem c9_witness :
    ParamList.find (mergeDefaults [("x", Json.str "d")] []) "secret" = none :=
  c9_subsql_scoping.2.1 badFunctionCall 1 [] [("secret", Value.str "x")]
    [("x", Json.str "d")] [] "secret" (by decide) (by decide) (by decide)

/-- C10: an explicit sub-template argument whose value expression
evaluates to Null in the caller environment is omitted from the
sub-template bag (the code logs an error and skips the emplace), so
inside the invoked section the parameter behaves as missing and its
declared default, if any, applies; on the concrete registry,
invoking sub with x = null renders the default "d". -/
theorem c10_null_arg_omitted :
    (∀ (g : Getter) (f : Nat) (args : List (String × ASTNode)) (env : ParamList)
       (bag : ParamList) (k : String),
      collectParamsWith (ASTNode.getValue g f) args env [] = .ok bag →
      (∀ node, (k, node) ∈ args → ASTNode.getValue g f node env = .ok none) →
      ParamList.find bag k = none)
    ∧
    (∀ (ds : List (String × Json)) (bag : ParamList) (k : String),
      ParamList.find bag k = none →
      ParamList.find (mergeDefaults ds bag) k = (List.lookup k ds).map convertDefault)
    ∧ getSubSql c10reg 9 "t" "main" [] = .ok "d" := by
  refine ⟨?_, ?_, by decide⟩
  · intro g f args env bag k hc hnull
    exact collect_null_skipped (ASTNode.getValue g f) args env [] bag k hc hnull rfl
  · intro ds bag k hnone
    rw [mergeDefaults_find, hnone]

/-- Witness for c10_null_arg_omitted: the argument x = null is omitted
from the bag, and after merging the declared default x = "d" applies. -/
theorem c10_witness :
    ParamList.find (mergeDefaults [("x", Json.str "d")] []) "x" = some (Value.str "d") := by
  have h1 := c10_null_arg_omitted.1 badFunctionCall 1 [("x", ASTNode.null)]
    [("s", Value.str "v")] [] "x" (by decide)
    (by
      intro node hmem
      have h2 : node = ASTNode.null := by
        have := List.mem_singleton.mp hmem
        exact congrArg Prod.snd this
      subst h2
      decide)
  have h2 := c10_null_arg_omitted.2.1 [("x", Json.str "d")] [] "x" h1
  exact h2.trans (by decide)

end SqlGen
